import Mathlib

/-!
Shallow embedding of the MPP-Backend movie/character/user CRUD service
(FastAPI + SQLAlchemy, files `EntitiesRepository.py`, `main.py`,
`auth_token.py`, `models.py`, `schemas.py`) and proofs about its
specified behaviour.

Tables are modelled as Lean lists of row records in persistence order;
the SQLite autoincrement primary key is modelled by a `nextId` counter
carried next to the rows.  Operations that can raise `HTTPException`
return the (possibly unchanged) state together with `Except Nat α`,
the `Nat` being the HTTP status code the Python code raises.
-/

namespace MPP

/-- Pydantic `MovieBase` (schemas.py): the client-submitted movie fields. -/
structure MovieBase where
  name : String
  year : Int
  duration : String
  genre : String
  description : String
  nrCharacters : Int := 0
  editorId : Option Nat := none
deriving DecidableEq

/-- SQLAlchemy `Movie` row (models.py, table `movies3`): `MovieBase`
fields plus the generated primary key `id`. -/
structure Movie where
  id : Nat
  name : String
  year : Int
  duration : String
  genre : String
  description : String
  nrCharacters : Int
  editorId : Option Nat
deriving DecidableEq

/-- Pydantic `CharacterBase` (schemas.py). -/
structure CharacterBase where
  name : String
  movieName : String
  description : String
  editorId : Option Nat := none
deriving DecidableEq

/-- SQLAlchemy `Character` row (models.py, table `characters`). -/
structure Character where
  id : Nat
  name : String
  movieName : String
  description : String
  editorId : Option Nat
deriving DecidableEq

/-- SQLAlchemy `User` row (models.py, table `users`). -/
structure User where
  id : Nat
  username : String
  hashedPassword : String
  nrMovies : Int
  nrCharacters : Int
deriving DecidableEq

/-- The movies table: rows in persistence order plus the autoincrement
counter supplying the next generated primary key. -/
structure MoviesDB where
  rows : List Movie
  nextId : Nat
deriving DecidableEq

/-- `Movie(**movie.dict())` followed by the commit that assigns the
autoincrement id `i`. -/
def movieOfBase (i : Nat) (m : MovieBase) : Movie :=
  { id := i, name := m.name, year := m.year, duration := m.duration,
    genre := m.genre, description := m.description,
    nrCharacters := m.nrCharacters, editorId := m.editorId }

/-- Forget the generated id of a stored row, recovering the submitted fields. -/
def baseOfMovie (r : Movie) : MovieBase :=
  { name := r.name, year := r.year, duration := r.duration, genre := r.genre,
    description := r.description, nrCharacters := r.nrCharacters,
    editorId := r.editorId }

/-- Well-formedness of the movies table: every stored id is below the
autoincrement counter (what SQLite's autoincrement guarantees). -/
abbrev MoviesDB.WF (db : MoviesDB) : Prop :=
  ∀ r ∈ db.rows, r.id < db.nextId

/-- `EntitiesRepo.get_movie` (EntitiesRepository.py:64-76):
`db.query(Movie).filter(Movie.id == movie_id).first()`, 404 when absent. -/
def get_movie (db : MoviesDB) (movie_id : Nat) : Except Nat Movie :=
  match db.rows.find? (fun r => r.id == movie_id) with
  | none => .error 404
  | some m => .ok m

/-- `EntitiesRepo.add_movie` (EntitiesRepository.py:78-93): reject with
400 when a row with the same name exists, otherwise insert and return
the row with its generated id.  The 400 is raised before `db.add`, so
the table is unchanged on failure. -/
def add_movie (db : MoviesDB) (movie : MovieBase) : MoviesDB × Except Nat Movie :=
  if (db.rows.find? (fun r => r.name == movie.name)).isSome then
    (db, .error 400)
  else
    let row := movieOfBase db.nextId movie
    ({ rows := db.rows ++ [row], nextId := db.nextId + 1 }, .ok row)

theorem baseOfMovie_movieOfBase (i : Nat) (m : MovieBase) :
    baseOfMovie (movieOfBase i m) = m := rfl

/-- Claim C3: `add_movie` fails with 400 and leaves the table unchanged
when a movie with the submitted name already exists; otherwise it
persists the movie under the generated id `db.nextId`, and
`get_movie` on that id afterwards returns a row equal to the input in
all fields plus the generated id. -/
theorem C3_create_conflict_or_get_roundtrip (db : MoviesDB) (m : MovieBase)
    (hwf : db.WF) :
    ((∃ r ∈ db.rows, r.name = m.name) → add_movie db m = (db, .error 400)) ∧
    ((∀ r ∈ db.rows, r.name ≠ m.name) →
      (add_movie db m).2 = .ok (movieOfBase db.nextId m) ∧
      movieOfBase db.nextId m ∈ (add_movie db m).1.rows ∧
      get_movie (add_movie db m).1 db.nextId = .ok (movieOfBase db.nextId m) ∧
      baseOfMovie (movieOfBase db.nextId m) = m ∧
      (movieOfBase db.nextId m).id = db.nextId) := by
  constructor
  · rintro ⟨r, hr, hname⟩
    have hne : db.rows.find? (fun r => r.name == m.name) ≠ none := by
      rw [Ne, List.find?_eq_none]
      push_neg
      exact ⟨r, hr, by simp [hname]⟩
    have hfind : (db.rows.find? (fun r => r.name == m.name)).isSome :=
      Option.ne_none_iff_isSome.mp hne
    simp [add_movie, hfind]
  · intro hfresh
    have hfind : db.rows.find? (fun r => r.name == m.name) = none := by
      apply List.find?_eq_none.mpr
      intro r hr
      simp [hfresh r hr]
    have hadd : add_movie db m =
        ({ rows := db.rows ++ [movieOfBase db.nextId m], nextId := db.nextId + 1 },
          .ok (movieOfBase db.nextId m)) := by
      simp [add_movie, hfind]
    have hidnone : db.rows.find? (fun r => r.id == db.nextId) = none := by
      apply List.find?_eq_none.mpr
      intro r hr
      have := hwf r hr
      simp only [beq_iff_eq]
      omega
    refine ⟨by rw [hadd], by rw [hadd]; simp, ?_, rfl, rfl⟩
    rw [hadd]
    simp only [get_movie, List.find?_append, hidnone, Option.none_or]
    simp [movieOfBase]

/-- Claim C3 witness: instantiation at a concrete one-row table, once with
a colliding name and once with a fresh name. -/
theorem C3_create_conflict_or_get_roundtrip_witness :
    (add_movie ⟨[⟨1, "Matrix", 1999, "2h", "SF", "d", 0, none⟩], 2⟩
        ⟨"Matrix", 1999, "2h", "SF", "d", 0, none⟩
      = (⟨[⟨1, "Matrix", 1999, "2h", "SF", "d", 0, none⟩], 2⟩, .error 400)) ∧
    (get_movie (add_movie ⟨[⟨1, "Matrix", 1999, "2h", "SF", "d", 0, none⟩], 2⟩
        ⟨"Matrix 2", 2003, "2h", "SF", "d", 0, none⟩).1 2
      = .ok (movieOfBase 2 ⟨"Matrix 2", 2003, "2h", "SF", "d", 0, none⟩)) := by
  constructor
  · exact (C3_create_conflict_or_get_roundtrip
      ⟨[⟨1, "Matrix", 1999, "2h", "SF", "d", 0, none⟩], 2⟩
      ⟨"Matrix", 1999, "2h", "SF", "d", 0, none⟩ (by decide)).1
      ⟨⟨1, "Matrix", 1999, "2h", "SF", "d", 0, none⟩, by decide, rfl⟩
  · exact ((C3_create_conflict_or_get_roundtrip
      ⟨[⟨1, "Matrix", 1999, "2h", "SF", "d", 0, none⟩], 2⟩
      ⟨"Matrix 2", 2003, "2h", "SF", "d", 0, none⟩ (by decide)).2
      (by decide)).2.2.1

/-- In-place mutation of the first row satisfying `p` (SQLAlchemy
`filter(...).first()` followed by `setattr` on the returned row). -/
def updateFirstBy {α : Type} (p : α → Bool) (f : α → α) : List α → List α
  | [] => []
  | x :: rest => if p x then f x :: rest else x :: updateFirstBy p f rest

theorem find?_updateFirstBy {α : Type} (p : α → Bool) (f : α → α)
    (hp : ∀ x, p (f x) = p x) (l : List α) :
    (updateFirstBy p f l).find? p = (l.find? p).map f := by
  induction l with
  | nil => rfl
  | cons x rest ih =>
    by_cases hx : p x
    · simp [updateFirstBy, hx, hp x]
    · simp [updateFirstBy, hx, ih]

/-- The `setattr` loop of `EntitiesRepo.update_movie`
(EntitiesRepository.py:131-133): every field of `MovieBase.dict()` is
written onto the stored row except `nrCharacters` and `editorId`. -/
def applyMovieUpdate (r : Movie) (u : MovieBase) : Movie :=
  { r with name := u.name, year := u.year, duration := u.duration,
           genre := u.genre, description := u.description }

/-- `EntitiesRepo.update_movie` (EntitiesRepository.py:118-136): 404 when
no row has the id (raised before any mutation); otherwise the first row
with that id is overwritten field by field and returned. -/
def update_movie (db : MoviesDB) (movie_id : Nat) (u : MovieBase) :
    MoviesDB × Except Nat Movie :=
  match db.rows.find? (fun r => r.id == movie_id) with
  | none => (db, .error 404)
  | some r =>
    ({ db with rows := updateFirstBy (fun r => r.id == movie_id) (applyMovieUpdate · u) db.rows },
      .ok (applyMovieUpdate r u))

/-- The characters table with its autoincrement counter. -/
structure CharsDB where
  rows : List Character
  nextId : Nat
deriving DecidableEq

/-- `EntitiesRepo.get_character` (EntitiesRepository.py:243-255). -/
def get_character (db : CharsDB) (character_id : Nat) : Except Nat Character :=
  match db.rows.find? (fun c => c.id == character_id) with
  | none => .error 404
  | some c => .ok c

/-- The `setattr` loop of `EntitiesRepo.update_character`
(EntitiesRepository.py:297-299): every field of `CharacterBase.dict()`
is written except `editorId`. -/
def applyCharacterUpdate (c : Character) (u : CharacterBase) : Character :=
  { c with name := u.name, movieName := u.movieName, description := u.description }

/-- `EntitiesRepo.update_character` (EntitiesRepository.py:284-302). -/
def update_character (db : CharsDB) (character_id : Nat) (u : CharacterBase) :
    CharsDB × Except Nat Character :=
  match db.rows.find? (fun c => c.id == character_id) with
  | none => (db, .error 404)
  | some c =>
    ({ db with rows := updateFirstBy (fun c => c.id == character_id) (applyCharacterUpdate · u) db.rows },
      .ok (applyCharacterUpdate c u))

/-- Claim C4: updating a nonexistent id fails with 404 and mutates
nothing, for movies and for characters alike; updating an existing
entity overwrites every submitted field except the server-managed ones
(`nrCharacters` and `editorId` for Movie, `editorId` for Character),
which keep their stored values, and a subsequent get returns exactly
that row. -/
theorem C4_update_notfound_or_overwrite
    (mdb : MoviesDB) (mid : Nat) (mu : MovieBase)
    (cdb : CharsDB) (cid : Nat) (cu : CharacterBase) :
    (mdb.rows.find? (fun r => r.id == mid) = none →
      update_movie mdb mid mu = (mdb, .error 404)) ∧
    (∀ r, mdb.rows.find? (fun r => r.id == mid) = some r →
      (update_movie mdb mid mu).2 = .ok (applyMovieUpdate r mu) ∧
      get_movie (update_movie mdb mid mu).1 mid = .ok (applyMovieUpdate r mu) ∧
      (applyMovieUpdate r mu).name = mu.name ∧
      (applyMovieUpdate r mu).year = mu.year ∧
      (applyMovieUpdate r mu).duration = mu.duration ∧
      (applyMovieUpdate r mu).genre = mu.genre ∧
      (applyMovieUpdate r mu).description = mu.description ∧
      (applyMovieUpdate r mu).nrCharacters = r.nrCharacters ∧
      (applyMovieUpdate r mu).editorId = r.editorId) ∧
    (cdb.rows.find? (fun c => c.id == cid) = none →
      update_character cdb cid cu = (cdb, .error 404)) ∧
    (∀ c, cdb.rows.find? (fun c => c.id == cid) = some c →
      (update_character cdb cid cu).2 = .ok (applyCharacterUpdate c cu) ∧
      get_character (update_character cdb cid cu).1 cid = .ok (applyCharacterUpdate c cu) ∧
      (applyCharacterUpdate c cu).name = cu.name ∧
      (applyCharacterUpdate c cu).movieName = cu.movieName ∧
      (applyCharacterUpdate c cu).description = cu.description ∧
      (applyCharacterUpdate c cu).editorId = c.editorId) := by
  refine ⟨?_, ?_, ?_, ?_⟩
  · intro h; simp [update_movie, h]
  · intro r hr
    have hup : ∀ x : Movie, ((applyMovieUpdate x mu).id == mid) = (x.id == mid) := by
      intro x; rfl
    refine ⟨by simp [update_movie, hr], ?_, rfl, rfl, rfl, rfl, rfl, rfl, rfl⟩
    simp only [update_movie, hr, get_movie]
    rw [find?_updateFirstBy _ _ hup, hr]
    rfl
  · intro h; simp [update_character, h]
  · intro c hc
    have hup : ∀ x : Character, ((applyCharacterUpdate x cu).id == cid) = (x.id == cid) := by
      intro x; rfl
    refine ⟨by simp [update_character, hc], ?_, rfl, rfl, rfl, rfl⟩
    simp only [update_character, hc, get_character]
    rw [find?_updateFirstBy _ _ hup, hc]
    rfl

/-- Claim C4 witness: concrete instantiation, on a missing id (404, state
unchanged) and on a present id (fields overwritten, server-managed
fields kept, get reflects the update). -/
theorem C4_update_notfound_or_overwrite_witness :
    (update_movie ⟨[⟨1, "Matrix", 1999, "2h", "SF", "d", 7, some 4⟩], 2⟩ 9
        ⟨"M2", 2003, "2h", "SF", "e", 0, none⟩
      = (⟨[⟨1, "Matrix", 1999, "2h", "SF", "d", 7, some 4⟩], 2⟩, .error 404)) ∧
    (get_movie (update_movie ⟨[⟨1, "Matrix", 1999, "2h", "SF", "d", 7, some 4⟩], 2⟩ 1
        ⟨"M2", 2003, "2h", "SF", "e", 0, none⟩).1 1
      = .ok (applyMovieUpdate ⟨1, "Matrix", 1999, "2h", "SF", "d", 7, some 4⟩
          ⟨"M2", 2003, "2h", "SF", "e", 0, none⟩)) ∧
    (applyMovieUpdate ⟨1, "Matrix", 1999, "2h", "SF", "d", 7, some 4⟩
        ⟨"M2", 2003, "2h", "SF", "e", 0, none⟩).nrCharacters = 7 ∧
    (update_character ⟨[⟨1, "Neo", "Matrix", "d", some 4⟩], 2⟩ 9 ⟨"Trinity", "Matrix", "e", none⟩
      = (⟨[⟨1, "Neo", "Matrix", "d", some 4⟩], 2⟩, .error 404)) ∧
    (applyCharacterUpdate ⟨1, "Neo", "Matrix", "d", some 4⟩
        ⟨"Trinity", "Matrix", "e", none⟩).editorId = some 4 := by
  refine ⟨?_, ?_, ?_, ?_, ?_⟩
  · exact (C4_update_notfound_or_overwrite
      ⟨[⟨1, "Matrix", 1999, "2h", "SF", "d", 7, some 4⟩], 2⟩ 9
      ⟨"M2", 2003, "2h", "SF", "e", 0, none⟩
      ⟨[⟨1, "Neo", "Matrix", "d", some 4⟩], 2⟩ 9 ⟨"Trinity", "Matrix", "e", none⟩).1
      (by decide)
  · exact ((C4_update_notfound_or_overwrite
      ⟨[⟨1, "Matrix", 1999, "2h", "SF", "d", 7, some 4⟩], 2⟩ 1
      ⟨"M2", 2003, "2h", "SF", "e", 0, none⟩
      ⟨[⟨1, "Neo", "Matrix", "d", some 4⟩], 2⟩ 9 ⟨"Trinity", "Matrix", "e", none⟩).2.1
      ⟨1, "Matrix", 1999, "2h", "SF", "d", 7, some 4⟩ (by decide)).2.1
  · exact ((C4_update_notfound_or_overwrite
      ⟨[⟨1, "Matrix", 1999, "2h", "SF", "d", 7, some 4⟩], 2⟩ 1
      ⟨"M2", 2003, "2h", "SF", "e", 0, none⟩
      ⟨[⟨1, "Neo", "Matrix", "d", some 4⟩], 2⟩ 9 ⟨"Trinity", "Matrix", "e", none⟩).2.1
      ⟨1, "Matrix", 1999, "2h", "SF", "d", 7, some 4⟩ (by decide)).2.2.2.2.2.2.2.1
  · exact (C4_update_notfound_or_overwrite
      ⟨[⟨1, "Matrix", 1999, "2h", "SF", "d", 7, some 4⟩], 2⟩ 9
      ⟨"M2", 2003, "2h", "SF", "e", 0, none⟩
      ⟨[⟨1, "Neo", "Matrix", "d", some 4⟩], 2⟩ 9 ⟨"Trinity", "Matrix", "e", none⟩).2.2.1
      (by decide)
  · exact ((C4_update_notfound_or_overwrite
      ⟨[⟨1, "Matrix", 1999, "2h", "SF", "d", 7, some 4⟩], 2⟩ 1
      ⟨"M2", 2003, "2h", "SF", "e", 0, none⟩
      ⟨[⟨1, "Neo", "Matrix", "d", some 4⟩], 2⟩ 1 ⟨"Trinity", "Matrix", "e", none⟩).2.2.2
      ⟨1, "Neo", "Matrix", "d", some 4⟩ (by decide)).2.2.2.2.2

/-- `EntitiesRepo.add_movies` (EntitiesRepository.py:95-116): walk the
submitted list; an entry whose name already has a row in the table is
appended to `not_added_movies`, any other entry is inserted and
committed at once (so later duplicate checks see it) and appended to
`added_movies`.  Result: final table, added rows, skipped entries. -/
def add_movies : MoviesDB → List MovieBase → MoviesDB × List Movie × List MovieBase
  | db, [] => (db, [], [])
  | db, m :: rest =>
    if (db.rows.find? (fun r => r.name == m.name)).isSome then
      let res := add_movies db rest
      (res.1, res.2.1, m :: res.2.2)
    else
      let row := movieOfBase db.nextId m
      let res := add_movies ⟨db.rows ++ [row], db.nextId + 1⟩ rest
      (res.1, row :: res.2.1, res.2.2)

theorem findName_isSome_iff (rows : List Movie) (n : String) :
    (rows.find? (fun r => r.name == n)).isSome = true ↔ n ∈ rows.map (·.name) := by
  rw [List.find?_isSome]
  constructor
  · rintro ⟨r, hr, hname⟩
    exact List.mem_map.mpr ⟨r, hr, by simpa using hname⟩
  · intro h
    rcases List.mem_map.mp h with ⟨r, hr, hname⟩
    exact ⟨r, hr, by simp [hname]⟩

theorem findName_isSome_eq_false (rows : List Movie) (n : String)
    (h : n ∉ rows.map (·.name)) :
    (rows.find? (fun r => r.name == n)).isSome = false := by
  rw [← Bool.not_eq_true]
  exact fun hc => h ((findName_isSome_iff rows n).mp hc)

theorem add_movies_length_partition (ms : List MovieBase) (db : MoviesDB) :
    (add_movies db ms).2.1.length + (add_movies db ms).2.2.length = ms.length := by
  induction ms generalizing db with
  | nil => simp [add_movies]
  | cons m rest ih =>
    simp only [add_movies]
    by_cases hmem : m.name ∈ db.rows.map (·.name)
    · have hs := (findName_isSome_iff db.rows m.name).mpr hmem
      simp only [hs, if_true, List.length_cons]
      have := ih db
      omega
    · have hs := findName_isSome_eq_false db.rows m.name hmem
      simp only [hs, Bool.false_eq_true, if_false, List.length_cons]
      have := ih ⟨db.rows ++ [movieOfBase db.nextId m], db.nextId + 1⟩
      omega

theorem add_movies_rows_length (ms : List MovieBase) (db : MoviesDB) :
    (add_movies db ms).1.rows.length = db.rows.length + (add_movies db ms).2.1.length := by
  induction ms generalizing db with
  | nil => simp [add_movies]
  | cons m rest ih =>
    simp only [add_movies]
    by_cases hmem : m.name ∈ db.rows.map (·.name)
    · have hs := (findName_isSome_iff db.rows m.name).mpr hmem
      simp only [hs, if_true]
      exact ih db
    · have hs := findName_isSome_eq_false db.rows m.name hmem
      simp only [hs, Bool.false_eq_true, if_false, List.length_cons]
      have := ih ⟨db.rows ++ [movieOfBase db.nextId m], db.nextId + 1⟩
      simp only [List.length_append, List.length_cons, List.length_nil] at this ⊢
      omega

theorem add_movies_perm (ms : List MovieBase) (db : MoviesDB) :
    List.Perm (((add_movies db ms).2.1.map baseOfMovie) ++ (add_movies db ms).2.2) ms := by
  induction ms generalizing db with
  | nil => simp [add_movies]
  | cons m rest ih =>
    simp only [add_movies]
    by_cases hmem : m.name ∈ db.rows.map (·.name)
    · have hs := (findName_isSome_iff db.rows m.name).mpr hmem
      simp only [hs, if_true]
      exact List.perm_middle.trans (List.Perm.cons m (ih db))
    · have hs := findName_isSome_eq_false db.rows m.name hmem
      simp only [hs, Bool.false_eq_true, if_false, List.map_cons, List.cons_append]
      exact List.Perm.cons m (ih ⟨db.rows ++ [movieOfBase db.nextId m], db.nextId + 1⟩)

theorem add_movies_names_monotone (ms : List MovieBase) (db : MoviesDB) :
    ∀ x ∈ db.rows.map (·.name), x ∈ (add_movies db ms).1.rows.map (·.name) := by
  induction ms generalizing db with
  | nil => intro x hx; simpa [add_movies] using hx
  | cons m rest ih =>
    intro x hx
    simp only [add_movies]
    by_cases hmem : m.name ∈ db.rows.map (·.name)
    · have hs := (findName_isSome_iff db.rows m.name).mpr hmem
      simp only [hs, if_true]
      exact ih db x hx
    · have hs := findName_isSome_eq_false db.rows m.name hmem
      simp only [hs, Bool.false_eq_true, if_false]
      refine ih ⟨db.rows ++ [movieOfBase db.nextId m], db.nextId + 1⟩ x ?_
      simp only [List.map_append]
      exact List.mem_append_left _ hx

theorem add_movies_skipped_mem (ms : List MovieBase) (db : MoviesDB) :
    ∀ b ∈ (add_movies db ms).2.2, b.name ∈ (add_movies db ms).1.rows.map (·.name) := by
  induction ms generalizing db with
  | nil => simp [add_movies]
  | cons m rest ih =>
    intro b hb
    simp only [add_movies] at hb ⊢
    by_cases hmem : m.name ∈ db.rows.map (·.name)
    · have hs := (findName_isSome_iff db.rows m.name).mpr hmem
      simp only [hs, if_true] at hb ⊢
      rcases List.mem_cons.mp hb with hbm | hbrest
      · subst hbm
        exact add_movies_names_monotone rest db _ hmem
      · exact ih db b hbrest
    · have hs := findName_isSome_eq_false db.rows m.name hmem
      simp only [hs, Bool.false_eq_true, if_false] at hb ⊢
      exact ih ⟨db.rows ++ [movieOfBase db.nextId m], db.nextId + 1⟩ b hb

theorem add_movies_added_fresh (ms : List MovieBase) (db : MoviesDB) :
    ∀ r ∈ (add_movies db ms).2.1, r.name ∉ db.rows.map (·.name) := by
  induction ms generalizing db with
  | nil => simp [add_movies]
  | cons m rest ih =>
    intro r hr
    simp only [add_movies] at hr
    by_cases hmem : m.name ∈ db.rows.map (·.name)
    · have hs := (findName_isSome_iff db.rows m.name).mpr hmem
      simp only [hs, if_true] at hr
      exact ih db r hr
    · have hs := findName_isSome_eq_false db.rows m.name hmem
      simp only [hs, Bool.false_eq_true, if_false] at hr
      rcases List.mem_cons.mp hr with hrm | hrrest
      · subst hrm
        exact hmem
      · intro hcontra
        refine ih ⟨db.rows ++ [movieOfBase db.nextId m], db.nextId + 1⟩ r hrrest ?_
        simp only [List.map_append]
        exact List.mem_append_left _ hcontra

theorem add_movies_nodup_names (ms : List MovieBase) (db : MoviesDB)
    (h : (db.rows.map (·.name)).Nodup) :
    ((add_movies db ms).1.rows.map (·.name)).Nodup := by
  induction ms generalizing db with
  | nil => simpa [add_movies] using h
  | cons m rest ih =>
    simp only [add_movies]
    by_cases hmem : m.name ∈ db.rows.map (·.name)
    · have hs := (findName_isSome_iff db.rows m.name).mpr hmem
      simp only [hs, if_true]
      exact ih db h
    · have hs := findName_isSome_eq_false db.rows m.name hmem
      simp only [hs, Bool.false_eq_true, if_false]
      refine ih ⟨db.rows ++ [movieOfBase db.nextId m], db.nextId + 1⟩ ?_
      simp only [List.map_append]
      rw [List.nodup_append]
      refine ⟨h, by simp [movieOfBase], ?_⟩
      intro x hx
      simp only [List.map_cons, List.map_nil, List.mem_singleton, movieOfBase]
      intro hxm
      exact hmem (hxm ▸ hx)

theorem add_movies_name_present (ms : List MovieBase) (db : MoviesDB) (n : String)
    (hn : n ∈ db.rows.map (·.name)) :
    (add_movies db ms).2.1.filter (fun r => r.name == n) = [] ∧
    (add_movies db ms).2.2.filter (fun b => b.name == n) = ms.filter (fun b => b.name == n) := by
  induction ms generalizing db with
  | nil => simp [add_movies]
  | cons m rest ih =>
    simp only [add_movies]
    by_cases hmem : m.name ∈ db.rows.map (·.name)
    · have hs := (findName_isSome_iff db.rows m.name).mpr hmem
      simp only [hs, if_true, List.filter_cons]
      rcases ih db hn with ⟨h1, h2⟩
      exact ⟨h1, by rw [h2]⟩
    · have hs := findName_isSome_eq_false db.rows m.name hmem
      have hne : m.name ≠ n := fun hmn => hmem (hmn ▸ hn)
      have hn' : n ∈ (MoviesDB.mk (db.rows ++ [movieOfBase db.nextId m]) (db.nextId + 1)).rows.map (·.name) := by
        simp only [List.map_append]
        exact List.mem_append_left _ hn
      rcases ih ⟨db.rows ++ [movieOfBase db.nextId m], db.nextId + 1⟩ hn' with ⟨h1, h2⟩
      simp only [hs, Bool.false_eq_true, if_false, List.filter_cons]
      have hrowne : ((movieOfBase db.nextId m).name == n) = false := by
        simp [movieOfBase, hne]
      have hbne : (m.name == n) = false := by simp [hne]
      simp only [hrowne, hbne, Bool.false_eq_true, if_false]
      exact ⟨h1, h2⟩

theorem add_movies_fresh_first (ms : List MovieBase) (db : MoviesDB) (n : String)
    (hn : n ∉ db.rows.map (·.name)) :
    ((add_movies db ms).2.1.filter (fun r => r.name == n)).map baseOfMovie
      = (ms.filter (fun b => b.name == n)).take 1 ∧
    (add_movies db ms).2.2.filter (fun b => b.name == n)
      = (ms.filter (fun b => b.name == n)).drop 1 := by
  induction ms generalizing db with
  | nil => simp [add_movies]
  | cons m rest ih =>
    simp only [add_movies]
    by_cases hmem : m.name ∈ db.rows.map (·.name)
    · -- the head entry collides with a stored row, so it is skipped;
      -- its name cannot be the fresh name n
      have hs := (findName_isSome_iff db.rows m.name).mpr hmem
      have hne : m.name ≠ n := fun hmn => hn (hmn ▸ hmem)
      have hbne : (m.name == n) = false := by simp [hne]
      rcases ih db hn with ⟨h1, h2⟩
      simp only [hs, if_true, List.filter_cons, hbne, Bool.false_eq_true, if_false]
      exact ⟨h1, h2⟩
    · have hs := findName_isSome_eq_false db.rows m.name hmem
      by_cases hmn : m.name = n
      · -- the first batch entry named n: it is inserted, and n is stored
        -- from now on, so every later entry named n is skipped
        subst hmn
        have hpresent : m.name ∈ (MoviesDB.mk (db.rows ++ [movieOfBase db.nextId m]) (db.nextId + 1)).rows.map (·.name) := by
          simp [movieOfBase]
        rcases add_movies_name_present rest
          ⟨db.rows ++ [movieOfBase db.nextId m], db.nextId + 1⟩ m.name hpresent with ⟨h1, h2⟩
        have hrow : ((movieOfBase db.nextId m).name == m.name) = true := by
          simp [movieOfBase]
        simp only [hs, Bool.false_eq_true, if_false, List.filter_cons, hrow, if_true,
          beq_self_eq_true, List.map_cons, h1, h2, List.map_nil]
        constructor
        · rfl
        · simp
      · have hne : (m.name == n) = false := by simp [hmn]
        have hrowne : ((movieOfBase db.nextId m).name == n) = false := by
          simp [movieOfBase, hmn]
        have hn' : n ∉ (MoviesDB.mk (db.rows ++ [movieOfBase db.nextId m]) (db.nextId + 1)).rows.map (·.name) := by
          simp only [List.map_append, List.mem_append]
          rintro (hc | hc)
          · exact hn hc
          · simp [movieOfBase] at hc
            exact hmn hc.symm
        rcases ih ⟨db.rows ++ [movieOfBase db.nextId m], db.nextId + 1⟩ hn' with ⟨h1, h2⟩
        simp only [hs, Bool.false_eq_true, if_false, List.filter_cons, hne, hrowne]
        exact ⟨h1, h2⟩

/-- Claim C5: `add_movies` partitions its input into added and skipped
(the added rows, stripped of their generated ids, together with the
skipped entries are a permutation of the input), the table grows by
exactly the number of added entries, every skipped entry's name
collides with a stored movie, every added row's name was absent from
the initial table, and the spec's concrete scenario holds: bulk-adding
5 movies of which 2 names collide with stored rows yields 3 added, 2
skipped, and a table larger by exactly 3. -/
theorem C5_bulk_create_partition (db : MoviesDB) (ms : List MovieBase) :
    ((add_movies db ms).2.1.length + (add_movies db ms).2.2.length = ms.length) ∧
    ((add_movies db ms).1.rows.length = db.rows.length + (add_movies db ms).2.1.length) ∧
    (List.Perm (((add_movies db ms).2.1.map baseOfMovie) ++ (add_movies db ms).2.2) ms) ∧
    (∀ b ∈ (add_movies db ms).2.2, b.name ∈ (add_movies db ms).1.rows.map (·.name)) ∧
    (∀ r ∈ (add_movies db ms).2.1, r.name ∉ db.rows.map (·.name)) ∧
    ((add_movies ⟨[⟨1, "A", 2000, "1h", "g", "d", 0, none⟩,
                   ⟨2, "B", 2000, "1h", "g", "d", 0, none⟩], 3⟩
        [⟨"A", 2000, "1h", "g", "d", 0, none⟩, ⟨"B", 2000, "1h", "g", "d", 0, none⟩,
         ⟨"C", 2000, "1h", "g", "d", 0, none⟩, ⟨"D", 2000, "1h", "g", "d", 0, none⟩,
         ⟨"E", 2000, "1h", "g", "d", 0, none⟩]).2.1.length = 3 ∧
     (add_movies ⟨[⟨1, "A", 2000, "1h", "g", "d", 0, none⟩,
                   ⟨2, "B", 2000, "1h", "g", "d", 0, none⟩], 3⟩
        [⟨"A", 2000, "1h", "g", "d", 0, none⟩, ⟨"B", 2000, "1h", "g", "d", 0, none⟩,
         ⟨"C", 2000, "1h", "g", "d", 0, none⟩, ⟨"D", 2000, "1h", "g", "d", 0, none⟩,
         ⟨"E", 2000, "1h", "g", "d", 0, none⟩]).2.2.length = 2 ∧
     (add_movies ⟨[⟨1, "A", 2000, "1h", "g", "d", 0, none⟩,
                   ⟨2, "B", 2000, "1h", "g", "d", 0, none⟩], 3⟩
        [⟨"A", 2000, "1h", "g", "d", 0, none⟩, ⟨"B", 2000, "1h", "g", "d", 0, none⟩,
         ⟨"C", 2000, "1h", "g", "d", 0, none⟩, ⟨"D", 2000, "1h", "g", "d", 0, none⟩,
         ⟨"E", 2000, "1h", "g", "d", 0, none⟩]).1.rows.length = 2 + 3) :=
  ⟨add_movies_length_partition ms db, add_movies_rows_length ms db,
   add_movies_perm ms db, add_movies_skipped_mem ms db,
   add_movies_added_fresh ms db, by decide, by decide, by decide⟩

/-- Claim C5 witness: instantiation at the concrete 5-entry batch with 2
collisions, picking one skipped entry and one added row. -/
theorem C5_bulk_create_partition_witness :
    ((⟨"A", 2000, "1h", "g", "d", 0, none⟩ : MovieBase).name ∈
      (add_movies ⟨[⟨1, "A", 2000, "1h", "g", "d", 0, none⟩,
                    ⟨2, "B", 2000, "1h", "g", "d", 0, none⟩], 3⟩
        [⟨"A", 2000, "1h", "g", "d", 0, none⟩, ⟨"B", 2000, "1h", "g", "d", 0, none⟩,
         ⟨"C", 2000, "1h", "g", "d", 0, none⟩, ⟨"D", 2000, "1h", "g", "d", 0, none⟩,
         ⟨"E", 2000, "1h", "g", "d", 0, none⟩]).1.rows.map (·.name)) ∧
    ((movieOfBase 3 ⟨"C", 2000, "1h", "g", "d", 0, none⟩).name ∉
      ([⟨1, "A", 2000, "1h", "g", "d", 0, none⟩,
        ⟨2, "B", 2000, "1h", "g", "d", 0, none⟩] : List Movie).map (·.name)) := by
  constructor
  · exact (C5_bulk_create_partition
      ⟨[⟨1, "A", 2000, "1h", "g", "d", 0, none⟩, ⟨2, "B", 2000, "1h", "g", "d", 0, none⟩], 3⟩
      [⟨"A", 2000, "1h", "g", "d", 0, none⟩, ⟨"B", 2000, "1h", "g", "d", 0, none⟩,
       ⟨"C", 2000, "1h", "g", "d", 0, none⟩, ⟨"D", 2000, "1h", "g", "d", 0, none⟩,
       ⟨"E", 2000, "1h", "g", "d", 0, none⟩]).2.2.2.1
      ⟨"A", 2000, "1h", "g", "d", 0, none⟩ (by decide)
  · exact (C5_bulk_create_partition
      ⟨[⟨1, "A", 2000, "1h", "g", "d", 0, none⟩, ⟨2, "B", 2000, "1h", "g", "d", 0, none⟩], 3⟩
      [⟨"A", 2000, "1h", "g", "d", 0, none⟩, ⟨"B", 2000, "1h", "g", "d", 0, none⟩,
       ⟨"C", 2000, "1h", "g", "d", 0, none⟩, ⟨"D", 2000, "1h", "g", "d", 0, none⟩,
       ⟨"E", 2000, "1h", "g", "d", 0, none⟩]).2.2.2.2.1
      (movieOfBase 3 ⟨"C", 2000, "1h", "g", "d", 0, none⟩) (by decide)

/-- Claim C10: `add_movies` checks each entry against the table as it has
grown so far (each insert is committed before the next duplicate
check). Hence for a name `n` not yet stored, the first batch entry named
`n` is the one and only added row with that name and every later entry
named `n` is skipped; and a table with pairwise-distinct movie names
still has pairwise-distinct movie names after any `add_movies` call. -/
theorem C10_bulk_duplicates_within_batch (db : MoviesDB) (ms : List MovieBase) (n : String)
    (hnodup : (db.rows.map (·.name)).Nodup) (hfresh : n ∉ db.rows.map (·.name)) :
    ((add_movies db ms).1.rows.map (·.name)).Nodup ∧
    ((add_movies db ms).2.1.filter (fun r => r.name == n)).map baseOfMovie
      = (ms.filter (fun b => b.name == n)).take 1 ∧
    (add_movies db ms).2.2.filter (fun b => b.name == n)
      = (ms.filter (fun b => b.name == n)).drop 1 :=
  ⟨add_movies_nodup_names ms db hnodup,
   (add_movies_fresh_first ms db n hfresh).1,
   (add_movies_fresh_first ms db n hfresh).2⟩

/-- Claim C10 witness: a batch holding two entries named "X" against a
table that does not store "X": the first entry is added, the second is
skipped, and the resulting table still has pairwise-distinct names. -/
theorem C10_bulk_duplicates_within_batch_witness :
    (((add_movies ⟨[⟨1, "A", 2000, "1h", "g", "d", 0, none⟩], 2⟩
        [⟨"X", 2000, "1h", "g", "d", 0, none⟩,
         ⟨"X", 2001, "2h", "h", "e", 0, none⟩]).1.rows.map (·.name)).Nodup) ∧
    (((add_movies ⟨[⟨1, "A", 2000, "1h", "g", "d", 0, none⟩], 2⟩
        [⟨"X", 2000, "1h", "g", "d", 0, none⟩,
         ⟨"X", 2001, "2h", "h", "e", 0, none⟩]).2.1.filter
           (fun r => r.name == "X")).map baseOfMovie
      = [⟨"X", 2000, "1h", "g", "d", 0, none⟩]) ∧
    ((add_movies ⟨[⟨1, "A", 2000, "1h", "g", "d", 0, none⟩], 2⟩
        [⟨"X", 2000, "1h", "g", "d", 0, none⟩,
         ⟨"X", 2001, "2h", "h", "e", 0, none⟩]).2.2.filter (fun b => b.name == "X")
      = [⟨"X", 2001, "2h", "h", "e", 0, none⟩]) := by
  have h := C10_bulk_duplicates_within_batch
    ⟨[⟨1, "A", 2000, "1h", "g", "d", 0, none⟩], 2⟩
    [⟨"X", 2000, "1h", "g", "d", 0, none⟩, ⟨"X", 2001, "2h", "h", "e", 0, none⟩]
    "X" (by decide) (by decide)
  exact ⟨h.1, h.2.1, h.2.2⟩

/-- The loop body of `EntitiesRepo.delete_duplicates`
(EntitiesRepository.py:176-180): walk the row snapshot carrying the
mutable `movie_names` list; a row whose name still occurs more than
once in `movie_names` is deleted (and one occurrence of its name
removed from `movie_names`), any other row stays.  Returns
(deleted rows, remaining rows), both in scan order. -/
def delete_duplicates_loop : List Movie → List String → List Movie × List Movie
  | [], _ => ([], [])
  | m :: rest, names =>
    if names.count m.name > 1 then
      let res := delete_duplicates_loop rest (names.erase m.name)
      (m :: res.1, res.2)
    else
      let res := delete_duplicates_loop rest names
      (res.1, m :: res.2)

/-- `EntitiesRepo.delete_duplicates` (EntitiesRepository.py:166-182):
`movie_names` starts as the list of all stored names. -/
def delete_duplicates (rows : List Movie) : List Movie × List Movie :=
  delete_duplicates_loop rows (rows.map (·.name))

/-- The rows the loop deletes, computed structurally: every row whose
name occurs again later in the scan. -/
def nonLastOccurrences : List Movie → List Movie
  | [] => []
  | m :: rest =>
    if m.name ∈ rest.map (·.name) then m :: nonLastOccurrences rest
    else nonLastOccurrences rest

/-- The rows the loop keeps, computed structurally: the last occurrence
of each stored name, in scan order. -/
def lastOccurrences : List Movie → List Movie
  | [] => []
  | m :: rest =>
    if m.name ∈ rest.map (·.name) then lastOccurrences rest
    else m :: lastOccurrences rest

theorem delete_duplicates_loop_eq (rows : List Movie) (names : List String)
    (H : ∀ x ∈ rows.map (·.name), names.count x = (rows.map (·.name)).count x) :
    delete_duplicates_loop rows names = (nonLastOccurrences rows, lastOccurrences rows) := by
  induction rows generalizing names with
  | nil => rfl
  | cons m rest ih =>
    have hcount : names.count m.name = (rest.map (·.name)).count m.name + 1 := by
      have := H m.name (by simp)
      simpa [List.count_cons] using this
    by_cases hmem : m.name ∈ rest.map (·.name)
    · have hpos : 0 < (rest.map (·.name)).count m.name := List.count_pos_iff.mpr hmem
      have hgt : names.count m.name > 1 := by omega
      have H' : ∀ x ∈ rest.map (·.name),
          (names.erase m.name).count x = (rest.map (·.name)).count x := by
        intro x hx
        by_cases hxm : x = m.name
        · subst hxm
          rw [List.count_erase_self]
          omega
        · rw [List.count_erase_of_ne hxm]
          have := H x (by simp [hx])
          rwa [List.map_cons, List.count_cons_of_ne hxm] at this
      simp only [delete_duplicates_loop, if_pos hgt, ih (names.erase m.name) H',
        nonLastOccurrences, lastOccurrences, if_pos hmem]
    · have hzero : (rest.map (·.name)).count m.name = 0 :=
        List.count_eq_zero.mpr hmem
      have hngt : ¬ names.count m.name > 1 := by omega
      have H' : ∀ x ∈ rest.map (·.name),
          names.count x = (rest.map (·.name)).count x := by
        intro x hx
        have hxm : x ≠ m.name := fun hc => hmem (hc ▸ hx)
        have := H x (by simp [hx])
        rwa [List.map_cons, List.count_cons_of_ne hxm] at this
      simp only [delete_duplicates_loop, if_neg hngt, ih names H',
        nonLastOccurrences, lastOccurrences, if_neg hmem]

theorem delete_duplicates_eq (rows : List Movie) :
    delete_duplicates rows = (nonLastOccurrences rows, lastOccurrences rows) := by
  rw [delete_duplicates]
  exact delete_duplicates_loop_eq rows (rows.map (·.name)) (fun _ _ => rfl)

theorem lastOccurrences_count (rows : List Movie) (x : String) :
    ((lastOccurrences rows).map (·.name)).count x
      = if x ∈ rows.map (·.name) then 1 else 0 := by
  induction rows with
  | nil => simp [lastOccurrences]
  | cons m rest ih =>
    by_cases hmem : m.name ∈ rest.map (·.name)
    · rw [lastOccurrences, if_pos hmem, ih]
      by_cases hxm : x = m.name
      · subst hxm
        simp [hmem]
      · simp only [List.map_cons, List.mem_cons]
        have : ¬ x = m.name := hxm
        simp [this]
    · rw [lastOccurrences, if_neg hmem]
      by_cases hxm : x = m.name
      · subst hxm
        simp only [List.map_cons, List.count_cons_self, ih, if_neg hmem]
        simp
      · rw [List.map_cons, List.count_cons_of_ne hxm, List.map_cons, ih]
        have : ¬ x = m.name := hxm
        simp [this]

theorem deleted_kept_count (rows : List Movie) (x : String) :
    ((nonLastOccurrences rows).map (·.name)).count x
      + ((lastOccurrences rows).map (·.name)).count x
      = (rows.map (·.name)).count x := by
  induction rows with
  | nil => simp [nonLastOccurrences, lastOccurrences]
  | cons m rest ih =>
    by_cases hmem : m.name ∈ rest.map (·.name)
    · rw [nonLastOccurrences, if_pos hmem, lastOccurrences, if_pos hmem]
      simp only [List.map_cons, List.count_cons]
      omega
    · rw [nonLastOccurrences, if_neg hmem, lastOccurrences, if_neg hmem]
      simp only [List.map_cons, List.count_cons]
      omega

theorem lastOccurrences_mem_of_unique (rows : List Movie) (m : Movie)
    (hm : m ∈ rows) (hcount : (rows.map (·.name)).count m.name = 1) :
    m ∈ lastOccurrences rows := by
  induction rows with
  | nil => cases hm
  | cons m' rest ih =>
    rcases List.mem_cons.mp hm with hm' | hmrest
    · subst hm'
      have hz : (rest.map (·.name)).count m.name = 0 := by
        have := hcount
        simp only [List.map_cons, List.count_cons_self] at this
        omega
      have hmem : m.name ∉ rest.map (·.name) := List.count_eq_zero.mp hz
      rw [lastOccurrences, if_neg hmem]
      exact List.mem_cons_self m _
    · have hpos : 0 < (rest.map (·.name)).count m.name :=
        List.count_pos_iff.mpr (List.mem_map.mpr ⟨m, hmrest, rfl⟩)
      have hne : m.name ≠ m'.name := by
        intro hc
        have := hcount
        rw [List.map_cons, ← hc, List.count_cons_self] at this
        omega
      have hrest : (rest.map (·.name)).count m.name = 1 := by
        have := hcount
        rw [List.map_cons, List.count_cons_of_ne hne] at this
        omega
      have hmemk := ih hmrest hrest
      by_cases hm'mem : m'.name ∈ rest.map (·.name)
      · rw [lastOccurrences, if_pos hm'mem]
        exact hmemk
      · rw [lastOccurrences, if_neg hm'mem]
        exact List.mem_cons_of_mem m' hmemk

/-- Claim C6: `delete_duplicates` deletes, for each name stored `k > 1`
times, exactly `k - 1` rows with that name (they are the returned
deleted list), keeps every row whose name is unique, and afterwards
every remaining stored name occurs exactly once (the remaining name
list has no duplicates). -/
theorem C6_delete_duplicates_survivors (rows : List Movie) :
    (∀ x, (rows.map (·.name)).count x > 1 →
      ((delete_duplicates rows).1.map (·.name)).count x
        = (rows.map (·.name)).count x - 1) ∧
    (∀ m ∈ rows, (rows.map (·.name)).count m.name = 1 →
      m ∈ (delete_duplicates rows).2) ∧
    (∀ x ∈ rows.map (·.name), ((delete_duplicates rows).2.map (·.name)).count x = 1) ∧
    ((delete_duplicates rows).2.map (·.name)).Nodup := by
  rw [delete_duplicates_eq]
  dsimp only
  refine ⟨?_, ?_, ?_, ?_⟩
  · intro x hx
    have h1 := deleted_kept_count rows x
    have h2 := lastOccurrences_count rows x
    have hmem : x ∈ rows.map (·.name) := List.count_pos_iff.mp (by omega)
    rw [if_pos hmem] at h2
    omega
  · intro m hm hcount
    exact lastOccurrences_mem_of_unique rows m hm hcount
  · intro x hx
    rw [lastOccurrences_count, if_pos hx]
  · rw [List.nodup_iff_count_le_one]
    intro x
    rw [lastOccurrences_count]
    split <;> omega

/-- Claim C6 witness: four rows, name "X" stored three times and "Y"
once: two "X" rows are deleted, the unique "Y" row is kept, and the
remaining names hold "X" exactly once and are duplicate-free. -/
theorem C6_delete_duplicates_survivors_witness :
    (((delete_duplicates
        [⟨1, "X", 2000, "1h", "g", "d", 0, none⟩, ⟨2, "Y", 2000, "1h", "g", "d", 0, none⟩,
         ⟨3, "X", 2001, "1h", "g", "d", 0, none⟩, ⟨4, "X", 2002, "1h", "g", "d", 0, none⟩]).1.map
           (·.name)).count "X" = 2) ∧
    ((⟨2, "Y", 2000, "1h", "g", "d", 0, none⟩ : Movie) ∈ (delete_duplicates
        [⟨1, "X", 2000, "1h", "g", "d", 0, none⟩, ⟨2, "Y", 2000, "1h", "g", "d", 0, none⟩,
         ⟨3, "X", 2001, "1h", "g", "d", 0, none⟩, ⟨4, "X", 2002, "1h", "g", "d", 0, none⟩]).2) ∧
    (((delete_duplicates
        [⟨1, "X", 2000, "1h", "g", "d", 0, none⟩, ⟨2, "Y", 2000, "1h", "g", "d", 0, none⟩,
         ⟨3, "X", 2001, "1h", "g", "d", 0, none⟩, ⟨4, "X", 2002, "1h", "g", "d", 0, none⟩]).2.map
           (·.name)).count "X" = 1) := by
  have h := C6_delete_duplicates_survivors
    [⟨1, "X", 2000, "1h", "g", "d", 0, none⟩, ⟨2, "Y", 2000, "1h", "g", "d", 0, none⟩,
     ⟨3, "X", 2001, "1h", "g", "d", 0, none⟩, ⟨4, "X", 2002, "1h", "g", "d", 0, none⟩]
  refine ⟨?_, ?_, ?_⟩
  · have := h.1 "X" (by decide)
    rw [this]
    decide
  · exact h.2.1 ⟨2, "Y", 2000, "1h", "g", "d", 0, none⟩ (by decide) (by decide)
  · exact h.2.2.1 "X" (by decide)

/-- A decoded JWT payload at the granularity this service inspects it:
the optional subject claim (`payload.get("sub")`). -/
structure Payload where
  sub : Option String
deriving DecidableEq

/-- A bearer token as seen through `jose.jwt.decode` with the service's
fixed secret and algorithm (auth_token.py): either it decodes to a
payload (well-signed, unexpired), or decoding raises `JWTError` (bad
signature, wrong key, expired, malformed). -/
inductive Token where
  | valid (payload : Payload) : Token
  | invalid : Token
deriving DecidableEq

/-- `auth_token.create_access_token` (auth_token.py:18-33) at the call
shape this service uses (`data={"sub": username}`): the issued token
carries the subject claim and, within its expiry window, decodes back
to it. -/
def create_access_token (sub : String) : Token := .valid ⟨some sub⟩

/-- `auth_token.decode_access_token` (auth_token.py:36-51): returns the
decoded payload, or raises HTTP 401 when `jwt.decode` throws
`JWTError`. -/
def decode_access_token (token : Token) : Except Nat Payload :=
  match token with
  | .valid p => .ok p
  | .invalid => .error 401

/-- `EntitiesRepo.verify_token` (EntitiesRepository.py:470-485):
decoding itself raises the 401; the explicit `payload is None` check is
dead code, so every decodable token passes. -/
def verify_token (token : Token) : Except Nat String :=
  match decode_access_token token with
  | .error e => .error e
  | .ok _ => .ok "Token is valid"

/-- `EntitiesRepo.verify_admin_token` (EntitiesRepository.py:487-502):
decode (401 raised on an undecodable token), then 401 unless
`payload.get("sub")` equals the literal string "admin". -/
def verify_admin_token (token : Token) : Except Nat String :=
  match decode_access_token token with
  | .error e => .error e
  | .ok payload =>
    if payload.sub == some "admin" then .ok "Token is valid" else .error 401

/-- `EntitiesRepo.login` (EntitiesRepository.py:431-452), with the
bcrypt verifier `auth_token.verify_password` passed as a parameter:
401 when the username has no row or the password does not verify
against the stored hash, otherwise a token whose subject claim is the
username, together with the user's id. -/
def login (verify_password : String → String → Bool) (users : List User)
    (username password : String) : Except Nat (Token × Nat) :=
  match users.find? (fun u => u.username == username) with
  | none => .error 401
  | some user =>
    if verify_password password user.hashedPassword then
      .ok (create_access_token user.username, user.id)
    else .error 401

/-- Claim C7: `login` fails with 401 when the username does not exist
and when the password does not verify against the stored hash;
otherwise it returns the found user's id and a token whose decoded
subject claim equals the submitted username. -/
theorem C7_login_rejects_or_issues_token (vp : String → String → Bool)
    (users : List User) (u p : String) :
    ((∀ usr ∈ users, usr.username ≠ u) → login vp users u p = .error 401) ∧
    (∀ usr, users.find? (fun x => x.username == u) = some usr →
      (vp p usr.hashedPassword = false → login vp users u p = .error 401) ∧
      (vp p usr.hashedPassword = true →
        login vp users u p = .ok (create_access_token u, usr.id) ∧
        decode_access_token (create_access_token u) = .ok ⟨some u⟩)) := by
  constructor
  · intro habs
    have hnone : users.find? (fun x => x.username == u) = none := by
      apply List.find?_eq_none.mpr
      intro x hx
      simp [habs x hx]
    simp [login, hnone]
  · intro usr hfind
    have huser : usr.username = u := by
      have := List.find?_some hfind
      simpa using this
    constructor
    · intro hvp
      simp [login, hfind, hvp]
    · intro hvp
      refine ⟨?_, rfl⟩
      simp [login, hfind, hvp, huser]

/-- Claim C7 witness: a one-user table; wrong username, wrong password
and good credentials, all at concrete inputs. -/
theorem C7_login_rejects_or_issues_token_witness :
    (login (fun p h => p == h) [⟨5, "alice", "pw", 0, 0⟩] "bob" "pw" = .error 401) ∧
    (login (fun p h => p == h) [⟨5, "alice", "pw", 0, 0⟩] "alice" "wrong" = .error 401) ∧
    (login (fun p h => p == h) [⟨5, "alice", "pw", 0, 0⟩] "alice" "pw"
      = .ok (create_access_token "alice", 5)) ∧
    (decode_access_token (create_access_token "alice") = .ok ⟨some "alice"⟩) := by
  refine ⟨?_, ?_, ?_, ?_⟩
  · exact (C7_login_rejects_or_issues_token (fun p h => p == h)
      [⟨5, "alice", "pw", 0, 0⟩] "bob" "pw").1
      (by intro usr hu; fin_cases hu; decide)
  · exact ((C7_login_rejects_or_issues_token (fun p h => p == h)
      [⟨5, "alice", "pw", 0, 0⟩] "alice" "wrong").2
      ⟨5, "alice", "pw", 0, 0⟩ (by decide)).1 (by decide)
  · exact (((C7_login_rejects_or_issues_token (fun p h => p == h)
      [⟨5, "alice", "pw", 0, 0⟩] "alice" "pw").2
      ⟨5, "alice", "pw", 0, 0⟩ (by decide)).2 (by decide)).1
  · exact (((C7_login_rejects_or_issues_token (fun p h => p == h)
      [⟨5, "alice", "pw", 0, 0⟩] "alice" "pw").2
      ⟨5, "alice", "pw", 0, 0⟩ (by decide)).2 (by decide)).2

/-- `EntitiesRepo.update_aggregated_column_users`
(EntitiesRepository.py:504-516): recount each user's owned movies and
characters by editor-id equality. -/
def update_aggregated_column_users (users : List User) (movies : List Movie)
    (chars : List Character) : List User :=
  users.map (fun u =>
    { u with
      nrMovies := ((movies.filter (fun m => m.editorId == some u.id)).length : Int),
      nrCharacters := ((chars.filter (fun c => c.editorId == some u.id)).length : Int) })

/-- `EntitiesRepo.get_non_admin_users` (EntitiesRepository.py:518-527):
refresh the aggregate columns, then return the users whose username is
not the literal "admin". -/
def get_non_admin_users (users : List User) (movies : List Movie)
    (chars : List Character) : List User :=
  (update_aggregated_column_users users movies chars).filter
    (fun u => !(u.username == "admin"))

/-- Route handler `GET /users/nonAdmin/` (main.py:556-567):
`verify_admin_token` first, then the filtered list. -/
def ep_get_non_admin_users (token : Token) (users : List User) (movies : List Movie)
    (chars : List Character) : Except Nat (List User) :=
  match verify_admin_token token with
  | .error e => .error e
  | .ok _ => .ok (get_non_admin_users users movies chars)

/-- Claim C8: `verify_admin_token` accepts exactly the tokens that
decode to a payload whose subject claim is the literal "admin"; the
`GET /users/nonAdmin/` handler therefore returns, under an admin token,
the stored users minus those named "admin" (usernames preserved in
order), and fails with 401 under a decodable non-admin token and under
an undecodable token. -/
theorem C8_admin_only_authorization (token : Token) (users : List User)
    (movies : List Movie) (chars : List Character) :
    ((∃ s, verify_admin_token token = .ok s) ↔ token = .valid ⟨some "admin"⟩) ∧
    (token = .valid ⟨some "admin"⟩ →
      ep_get_non_admin_users token users movies chars
        = .ok (get_non_admin_users users movies chars) ∧
      (get_non_admin_users users movies chars).map (·.username)
        = (users.filter (fun u => !(u.username == "admin"))).map (·.username) ∧
      (∀ u ∈ get_non_admin_users users movies chars, u.username ≠ "admin")) ∧
    (∀ p, token = .valid p → p.sub ≠ some "admin" →
      ep_get_non_admin_users token users movies chars = .error 401) ∧
    (token = .invalid →
      ep_get_non_admin_users token users movies chars = .error 401) := by
  refine ⟨?_, ?_, ?_, ?_⟩
  · constructor
    · rintro ⟨s, hs⟩
      match token with
      | .invalid => simp [verify_admin_token, decode_access_token] at hs
      | .valid pl =>
        simp only [verify_admin_token, decode_access_token] at hs
        by_cases hsub : pl.sub = some "admin"
        · match pl with
          | ⟨s'⟩ => simp_all
        · simp [hsub] at hs
    · rintro rfl
      exact ⟨"Token is valid", by simp [verify_admin_token, decode_access_token]⟩
  · rintro rfl
    refine ⟨by simp [ep_get_non_admin_users, verify_admin_token, decode_access_token], ?_, ?_⟩
    · rw [get_non_admin_users, update_aggregated_column_users, List.filter_map, List.map_map]
      rfl
    · intro u hu
      simp only [get_non_admin_users, List.mem_filter] at hu
      intro hc
      simp [hc] at hu
  · rintro p rfl hsub
    have hbeq : (p.sub == some "admin") = false := by
      simp [hsub]
    simp [ep_get_non_admin_users, verify_admin_token, decode_access_token, hbeq]
  · rintro rfl
    simp [ep_get_non_admin_users, verify_admin_token, decode_access_token]

/-- Claim C8 witness: a two-user table under the admin token (usernames
returned exclude "admin"), a decodable non-admin token (401) and an
undecodable token (401), all concrete. -/
theorem C8_admin_only_authorization_witness :
    (ep_get_non_admin_users (.valid ⟨some "admin"⟩)
        [⟨1, "admin", "h", 0, 0⟩, ⟨2, "alice", "h", 0, 0⟩] [] []
      = .ok (get_non_admin_users [⟨1, "admin", "h", 0, 0⟩, ⟨2, "alice", "h", 0, 0⟩] [] [])) ∧
    ((get_non_admin_users [⟨1, "admin", "h", 0, 0⟩, ⟨2, "alice", "h", 0, 0⟩] [] []).map
        (·.username) = ["alice"]) ∧
    (ep_get_non_admin_users (.valid ⟨some "alice"⟩)
        [⟨1, "admin", "h", 0, 0⟩, ⟨2, "alice", "h", 0, 0⟩] [] [] = .error 401) ∧
    (ep_get_non_admin_users .invalid
        [⟨1, "admin", "h", 0, 0⟩, ⟨2, "alice", "h", 0, 0⟩] [] [] = .error 401) := by
  refine ⟨?_, ?_, ?_, ?_⟩
  · exact ((C8_admin_only_authorization (.valid ⟨some "admin"⟩)
      [⟨1, "admin", "h", 0, 0⟩, ⟨2, "alice", "h", 0, 0⟩] [] []).2.1 rfl).1
  · have h := ((C8_admin_only_authorization (.valid ⟨some "admin"⟩)
      [⟨1, "admin", "h", 0, 0⟩, ⟨2, "alice", "h", 0, 0⟩] [] []).2.1 rfl).2.1
    rw [h]
    decide
  · exact (C8_admin_only_authorization (.valid ⟨some "alice"⟩)
      [⟨1, "admin", "h", 0, 0⟩, ⟨2, "alice", "h", 0, 0⟩] [] []).2.2.1
      ⟨some "alice"⟩ rfl (by decide)
  · exact (C8_admin_only_authorization .invalid
      [⟨1, "admin", "h", 0, 0⟩, ⟨2, "alice", "h", 0, 0⟩] [] []).2.2.2 rfl

/-- `EntitiesRepo.delete_movie_by_id` (EntitiesRepository.py:138-150):
404 when no row has the id (raised before any mutation), otherwise the
first row with that id is deleted. -/
def delete_movie_by_id (db : MoviesDB) (movie_id : Nat) : MoviesDB × Except Nat Unit :=
  match db.rows.find? (fun r => r.id == movie_id) with
  | none => (db, .error 404)
  | some _ =>
    ({ db with rows := db.rows.eraseP (fun r => r.id == movie_id) }, .ok ())

/-- Route handler `DELETE /movies/{movie_id}` (main.py:171-182): the
signature declares the oauth2 bearer-token dependency — which only
extracts the credential string from the Authorization header — but the
body never calls `verify_token` on it; it deletes and reports success
whatever the token decodes to. -/
def ep_delete_movie_by_id (db : MoviesDB) (movie_id : Nat) (token : Token) :
    MoviesDB × Except Nat String :=
  match delete_movie_by_id db movie_id with
  | (db', .error e) => (db', .error e)
  | (db', .ok _) => (db', .ok "Movie deleted successfully")

/-- Route handler `GET /movies/{movie_id}` (main.py:120-133), for
contrast: it runs `EntitiesRepo().verify_token(token)` before the
lookup, so an undecodable token is answered with 401. -/
def ep_get_movie (db : MoviesDB) (movie_id : Nat) (token : Token) :
    Except Nat Movie :=
  match verify_token token with
  | .error e => .error e
  | .ok _ => get_movie db movie_id

/-- Claim C1, evaluated at the failing input: `DELETE /movies/1` against
a table holding movie 1, presenting an undecodable (invalid, expired or
wrongly signed) bearer token.  The handler performs the deletion and
answers success instead of 401, because it never verifies the token it
declares; the sibling `GET /movies/1` handler with the same token does
answer 401. -/
theorem C1_delete_performs_despite_invalid_token :
    (ep_delete_movie_by_id ⟨[⟨1, "Matrix", 1999, "2h", "SF", "d", 0, none⟩], 2⟩ 1 .invalid
      = (⟨[], 2⟩, .ok "Movie deleted successfully")) ∧
    (ep_get_movie ⟨[⟨1, "Matrix", 1999, "2h", "SF", "d", 0, none⟩], 2⟩ 1 .invalid
      = .error 401) := by
  constructor <;> rfl

/-- A registered websocket connection of `active_connections`
(main.py:31): its registry position and whether a push
(`await connection.send_json(...)`) succeeds or raises. -/
structure Conn where
  cid : Nat
  alive : Bool
deriving DecidableEq

/-- `notify_clients` (main.py:83-87): iterate `active_connections` and
push the event to each entry in turn.  There is no try/except, so the
first failing push raises out of the loop and no later entry is
reached.  Returns the ids that received the event and whether an
exception escaped. -/
def notify_clients : List Conn → List Nat × Bool
  | [] => ([], false)
  | c :: rest =>
    if c.alive then
      let res := notify_clients rest
      (c.cid :: res.1, res.2)
    else ([], true)

/-- Claim C2, evaluated at the failing input: a registry of 3 open
connections whose first entry is dead.  The failed push aborts the
loop, so neither of the two live connections receives the event (the
claim expects both to), and the exception escapes the broadcast.  With
the dead entry last, the two live ones do receive — delivery depends on
registry order, it is not failure-isolated. -/
theorem C2_broadcast_aborts_on_failed_push :
    (notify_clients [⟨1, false⟩, ⟨2, true⟩, ⟨3, true⟩] = ([], true)) ∧
    ((notify_clients [⟨1, false⟩, ⟨2, true⟩, ⟨3, true⟩]).1.length = 0) ∧
    (notify_clients [⟨2, true⟩, ⟨3, true⟩, ⟨1, false⟩] = ([2, 3], true)) := by
  refine ⟨rfl, rfl, rfl⟩

/-- `EntitiesRepo.get_movies_skip_limit` (EntitiesRepository.py:51-62):
`offset(skip).limit(limit)` over the rows in persistence order. -/
def get_movies_skip_limit (db : MoviesDB) (skip limit : Nat) : List Movie :=
  (db.rows.drop skip).take limit

/-- The per-movie body of `update_aggregated_column_movies`
(EntitiesRepository.py:369-375): store in `nrCharacters` the number of
characters whose `movieName` string-equals this movie's name. -/
def recountCharacters (chars : List Character) (m : Movie) : Movie :=
  { m with nrCharacters := ((chars.filter (fun c => c.movieName == m.name)).length : Int) }

/-- `EntitiesRepo.update_aggregated_column_movies`
(EntitiesRepository.py:359-375): recount over the movies returned by
`get_movies_skip_limit(db_movies, 0, 1000)` — the first 1000 rows, the
limit is hardcoded — leaving every later row untouched. -/
def update_aggregated_column_movies (db : MoviesDB) (chars : List Character) : MoviesDB :=
  { db with rows :=
      (get_movies_skip_limit db 0 1000).map (recountCharacters chars) ++ db.rows.drop 1000 }

/-- Claim C9: `update_aggregated_column_movies` keeps the table length,
replaces each of at most the first 1000 rows by its recount — same row
with `nrCharacters` set to the number of characters whose `movieName`
string-equals the row's name, all other fields kept — and leaves every
row from position 1000 on unchanged. -/
theorem C9_recount_first_1000_only (db : MoviesDB) (chars : List Character) (i : Nat) :
    ((update_aggregated_column_movies db chars).rows.length = db.rows.length) ∧
    (i < 1000 →
      (update_aggregated_column_movies db chars).rows[i]?
        = (db.rows[i]?).map (recountCharacters chars)) ∧
    (1000 ≤ i →
      (update_aggregated_column_movies db chars).rows[i]? = db.rows[i]?) ∧
    (∀ m : Movie,
      (recountCharacters chars m).nrCharacters
        = ((chars.filter (fun c => c.movieName == m.name)).length : Int) ∧
      (recountCharacters chars m).id = m.id ∧
      (recountCharacters chars m).name = m.name ∧
      (recountCharacters chars m).year = m.year ∧
      (recountCharacters chars m).duration = m.duration ∧
      (recountCharacters chars m).genre = m.genre ∧
      (recountCharacters chars m).description = m.description ∧
      (recountCharacters chars m).editorId = m.editorId) := by
  have hlen1 : ((get_movies_skip_limit db 0 1000).map (recountCharacters chars)).length
      = min 1000 db.rows.length := by
    simp [get_movies_skip_limit]
  refine ⟨?_, ?_, ?_, ?_⟩
  · simp only [update_aggregated_column_movies, List.length_append, hlen1, List.length_drop]
    omega
  · intro hi
    by_cases hlt : i < min 1000 db.rows.length
    · rw [update_aggregated_column_movies]
      rw [List.getElem?_append_left (by rw [hlen1]; exact hlt)]
      rw [List.getElem?_map, get_movies_skip_limit, List.drop_zero,
        List.getElem?_take_of_lt hi]
    · have hge : db.rows.length ≤ i := by omega
      rw [update_aggregated_column_movies]
      rw [List.getElem?_eq_none (by simp only [List.length_append, hlen1, List.length_drop]; omega),
        List.getElem?_eq_none hge]
      rfl
  · intro hi
    rw [update_aggregated_column_movies]
    by_cases hlong : 1000 ≤ db.rows.length
    · have hmin : min 1000 db.rows.length = 1000 := by omega
      rw [List.getElem?_append_right (by rw [hlen1, hmin]; omega)]
      rw [hlen1, hmin, List.getElem?_drop]
      have hidx : 1000 + (i - 1000) = i := by omega
      rw [hidx]
    · have hge : db.rows.length ≤ i := by omega
      rw [List.getElem?_append_right (by rw [hlen1]; omega)]
      rw [List.getElem?_eq_none (by simp; omega), List.getElem?_eq_none hge]
  · intro m
    exact ⟨rfl, rfl, rfl, rfl, rfl, rfl, rfl, rfl⟩

set_option maxRecDepth 4000 in
/-- Claim C9 witness: a two-row table with one matching character:
row 0 is recounted to 1, an out-of-range probe beyond position 1000
behaves identically on both sides, and the recount keeps the name. -/
theorem C9_recount_first_1000_only_witness :
    ((update_aggregated_column_movies
        ⟨[⟨1, "X", 2000, "1h", "g", "d", 0, none⟩, ⟨2, "Y", 2000, "1h", "g", "d", 5, none⟩], 3⟩
        [⟨1, "Neo", "X", "d", none⟩]).rows[0]?
      = some ⟨1, "X", 2000, "1h", "g", "d", 1, none⟩) ∧
    ((update_aggregated_column_movies
        ⟨[⟨1, "X", 2000, "1h", "g", "d", 0, none⟩, ⟨2, "Y", 2000, "1h", "g", "d", 5, none⟩], 3⟩
        [⟨1, "Neo", "X", "d", none⟩]).rows[1500]?
      = ([⟨1, "X", 2000, "1h", "g", "d", 0, none⟩,
          ⟨2, "Y", 2000, "1h", "g", "d", 5, none⟩] : List Movie)[1500]?) := by
  constructor
  · have h := (C9_recount_first_1000_only
      ⟨[⟨1, "X", 2000, "1h", "g", "d", 0, none⟩, ⟨2, "Y", 2000, "1h", "g", "d", 5, none⟩], 3⟩
      [⟨1, "Neo", "X", "d", none⟩] 0).2.1 (by omega)
    rw [h]
    rfl
  · exact (C9_recount_first_1000_only
      ⟨[⟨1, "X", 2000, "1h", "g", "d", 0, none⟩, ⟨2, "Y", 2000, "1h", "g", "d", 5, none⟩], 3⟩
      [⟨1, "Neo", "X", "d", none⟩] 1500).2.2.1 (by omega)

end MPP
